import Mathlib

/-!
Verification development for the Chimera-Navigator service layer.

The definitions below are a shallow embedding of the TypeScript service:
  - shared/schema.ts        (row shapes of the relational store)
  - server/storage.ts       (DatabaseStorage: one pure function per operation)
  - server/ai-service.ts    (AIService: the AI delegate)
  - the Express route file  (registerRoutes: HTTP handlers and the ws chat relay)

Conventions:
  - The database is an explicit value of type DB threaded through every
    operation; SQL inserts append to a list, updates map over it, selects
    filter it and take the head (drizzle's destructuring of the row array).
  - JavaScript null is Option.none; machine timestamps are a Nat clock on
    the DB, incremented at every new Date() call, which soundly models a
    monotone wall clock.
  - External collaborators (OpenAI completions, Stripe) are oracles: the
    model content a completion call would return is a function supplied in
    an environment record, and a Stripe webhook arrives already run through
    constructEvent (none = signature verification threw).
-/

/-- JSON values, as produced by JSON.parse. Numbers are embedded as
integers: the fragment of JSON the service ever parses or compares
contains no fractional literals. -/
inductive Json where
  | null : Json
  | bool (b : Bool) : Json
  | num (n : Int) : Json
  | str (s : String) : Json
  | arr (elems : List Json) : Json
  | obj (fields : List (String × Json)) : Json

/-- Opening brace character, written numerically. -/
def lbrace : Char := Char.ofNat 123

/-- Closing brace character, written numerically. -/
def rbrace : Char := Char.ofNat 125

/-- JSON insignificant whitespace. -/
def isWsChar (c : Char) : Bool :=
  c = ' ' || c = '\n' || c = '\t' || c = '\r'

/-- Drop leading whitespace. -/
def skipWs : List Char → List Char
  | [] => []
  | c :: cs => if isWsChar c then skipWs cs else c :: cs

/-- JSON string escape characters (the subset the service exercises):
quote, backslash and slash map to themselves, and the letters n, t, r
map to their control characters. -/
def escChar (e : Char) : Option Char :=
  if e = '"' ∨ e = '\\' ∨ e = '/' then some e
  else if e = 'n' then some (Char.ofNat 10)
  else if e = 't' then some (Char.ofNat 9)
  else if e = 'r' then some (Char.ofNat 13)
  else none

/-- Body of a JSON string literal, after the opening quote; returns the
decoded characters and the remainder after the closing quote. -/
def strBody : List Char → Option (List Char × List Char)
  | [] => none
  | c :: cs =>
    if c = '"' then some ([], cs)
    else if c = '\\' then
      match cs with
      | [] => none
      | e :: cs2 =>
        match escChar e with
        | none => none
        | some d =>
          match strBody cs2 with
          | none => none
          | some (s, r) => some (d :: s, r)
    else
      match strBody cs with
      | none => none
      | some (s, r) => some (c :: s, r)

/-- Accumulate decimal digits. -/
def digitsToNat (acc : Nat) : List Char → (Nat × List Char)
  | [] => (acc, [])
  | c :: cs =>
    if c.isDigit then digitsToNat (acc * 10 + (c.toNat - 48)) cs else (acc, c :: cs)

/-- Parse an integer JSON number. -/
def parseNum : List Char → Option (Json × List Char)
  | [] => none
  | c :: rest =>
    if c = '-' then
      match rest with
      | [] => none
      | d :: _ =>
        if d.isDigit then
          let (n, r) := digitsToNat 0 rest
          some (Json.num (-(Int.ofNat n)), r)
        else none
    else if c.isDigit then
      let (n, r) := digitsToNat 0 (c :: rest)
      some (Json.num (Int.ofNat n), r)
    else none

/-- Match an expected literal character sequence. -/
def expectChars : List Char → List Char → Option (List Char)
  | [], rest => some rest
  | _ :: _, [] => none
  | e :: es, c :: cs => if c = e then expectChars es cs else none

mutual

/-- Recursive-descent JSON value parser (fuel-indexed), embedding the
behavior of JSON.parse on the JSON fragment the service exchanges. -/
def parseVal : Nat → List Char → Option (Json × List Char)
  | 0, _ => none
  | Nat.succ fuel, cs =>
    match skipWs cs with
    | [] => none
    | c :: rest =>
      if c = '"' then
        match strBody rest with
        | some (s, r) => some (Json.str (String.mk s), r)
        | none => none
      else if c = lbrace then parseObjBody fuel rest
      else if c = '[' then parseArrBody fuel rest
      else if c = 't' then (expectChars ['r', 'u', 'e'] rest).map (fun r => (Json.bool true, r))
      else if c = 'f' then (expectChars ['a', 'l', 's', 'e'] rest).map (fun r => (Json.bool false, r))
      else if c = 'n' then (expectChars ['u', 'l', 'l'] rest).map (fun r => (Json.null, r))
      else parseNum (c :: rest)

/-- Object body, after the opening brace. -/
def parseObjBody : Nat → List Char → Option (Json × List Char)
  | 0, _ => none
  | Nat.succ fuel, cs =>
    match skipWs cs with
    | [] => none
    | c :: rest =>
      if c = rbrace then some (Json.obj [], rest)
      else parseMembers fuel (c :: rest) []

/-- Comma-separated members of a JSON object. -/
def parseMembers : Nat → List Char → List (String × Json) → Option (Json × List Char)
  | 0, _, _ => none
  | Nat.succ fuel, cs, acc =>
    match skipWs cs with
    | [] => none
    | c :: rest =>
      if c = '"' then
        match strBody rest with
        | none => none
        | some (k, r1) =>
          match skipWs r1 with
          | ':' :: r2 =>
            match parseVal fuel r2 with
            | none => none
            | some (v, r3) =>
              match skipWs r3 with
              | ',' :: r4 => parseMembers fuel r4 (acc ++ [(String.mk k, v)])
              | d :: r4 =>
                if d = rbrace then some (Json.obj (acc ++ [(String.mk k, v)]), r4) else none
              | [] => none
          | _ => none
      else none

/-- Array body, after the opening bracket. -/
def parseArrBody : Nat → List Char → Option (Json × List Char)
  | 0, _ => none
  | Nat.succ fuel, cs =>
    match skipWs cs with
    | [] => none
    | c :: rest =>
      if c = ']' then some (Json.arr [], rest)
      else parseElems fuel (c :: rest) []

/-- Comma-separated elements of a JSON array. -/
def parseElems : Nat → List Char → List Json → Option (Json × List Char)
  | 0, _, _ => none
  | Nat.succ fuel, cs, acc =>
    match parseVal fuel cs with
    | none => none
    | some (v, r) =>
      match skipWs r with
      | ',' :: r2 => parseElems fuel r2 (acc ++ [v])
      | d :: r2 => if d = ']' then some (Json.arr (acc ++ [v]), r2) else none
      | [] => none

end

/-- JSON.parse: parse a whole string, allowing trailing whitespace only;
none models the thrown SyntaxError. -/
def parseJson (s : String) : Option Json :=
  match parseVal (4 * (s.data.length + 1)) s.data with
  | some (j, r) => if (skipWs r).isEmpty then some j else none
  | none => none

/-- Does the pattern occur starting at the head of the character list? -/
def startsWithChars : List Char → List Char → Bool
  | _, [] => true
  | [], _ :: _ => false
  | c :: cs, d :: ds => c = d && startsWithChars cs ds

/-- Substring occurrence over character lists. -/
def containsChars : List Char → List Char → Bool
  | [], pat => pat.isEmpty
  | c :: cs, pat => startsWithChars (c :: cs) pat || containsChars cs pat

/-- JavaScript String.prototype.includes, for the non-empty patterns the
routes test with. -/
def jsIncludes (s pat : String) : Bool := containsChars s.data pat.data

/-! ## Data model (shared/schema.ts row shapes) -/

/-- A users row. accountTier defaults to "free"; credits defaults to 1 and
is null (none) for pro accounts, meaning unlimited. -/
structure User where
  id : Nat
  firebaseUid : String
  email : String
  displayName : Option String
  photoURL : Option String
  accountTier : String
  credits : Option Int
  stripeCustomerId : Option String
deriving DecidableEq

/-- A projects row; status is one of pending, processing, completed, error. -/
structure Project where
  id : Nat
  userId : Nat
  name : String
  description : Option String
  status : String
deriving DecidableEq

/-- A project_files row. The source column named type is rendered ftype. -/
structure ProjectFile where
  id : Nat
  projectId : Nat
  filename : String
  content : String
  path : String
  ftype : String
deriving DecidableEq

/-- An analysis_results row. astData is an object keyed by filename;
schemaData renders the jsonb column named schema. -/
structure AnalysisResultRow where
  id : Nat
  projectId : Nat
  astData : List (String × Json)
  hooks : List Json
  imports : List Json
  dependencies : List Json
  schemaData : Json

/-- One entry of an ai_chats messages array. -/
structure ChatMsg where
  role : String
  content : String
  timestamp : Nat
deriving DecidableEq

/-- An ai_chats row. -/
structure AiChat where
  id : Nat
  userId : Nat
  projectId : Option Nat
  messages : List ChatMsg
  updatedAt : Nat
deriving DecidableEq

/-- A logs row. The metadata jsonb column is not modeled: no operation of
the service ever reads it back. -/
structure LogRow where
  projectId : Option Nat
  level : String
  message : String
deriving DecidableEq

/-- The relational store, plus a fresh-id supply (serial columns) and the
clock that new Date() reads. -/
structure DB where
  users : List User
  projects : List Project
  files : List ProjectFile
  results : List AnalysisResultRow
  chats : List AiChat
  logs : List LogRow
  nextId : Nat
  clock : Nat

/-- new Date(): read the clock and advance it, so successive timestamps
are strictly increasing (a monotone wall clock). -/
def tick (db : DB) : Nat × DB :=
  (db.clock, { db with clock := db.clock + 1 })

/-! ## Data-access layer (server/storage.ts, class DatabaseStorage) -/

/-- storage.getUser: select from users where id. -/
def getUser (id : Nat) (db : DB) : Option User :=
  (db.users.filter (fun u => u.id == id)).head?

/-- storage.getUserByFirebaseUid. -/
def getUserByFirebaseUid (uid : String) (db : DB) : Option User :=
  (db.users.filter (fun u => u.firebaseUid == uid)).head?

/-- The insert body accepted by storage.createUser. A none in accountTier
or credits means the field was absent, so the column default applies
(accountTier "free", credits 1); some none in credits is an explicit null. -/
structure InsertUser where
  firebaseUid : String
  email : String
  displayName : Option String
  photoURL : Option String
  accountTier : Option String
  credits : Option (Option Int)
  stripeCustomerId : Option String

/-- storage.createUser: insert the row and return it. -/
def createUser (b : InsertUser) (db : DB) : User × DB :=
  let u : User :=
    { id := db.nextId, firebaseUid := b.firebaseUid, email := b.email,
      displayName := b.displayName, photoURL := b.photoURL,
      accountTier := b.accountTier.getD "free",
      credits := b.credits.getD (some 1),
      stripeCustomerId := b.stripeCustomerId }
  (u, { db with users := db.users ++ [u], nextId := db.nextId + 1 })

/-- storage.updateUserCredits: set credits (and updatedAt) where id. -/
def updateUserCredits (userId : Nat) (credits : Int) (db : DB) : DB :=
  { db with users := db.users.map (fun u =>
      if u.id == userId then { u with credits := some credits } else u) }

/-- storage.upgradeUserAccount: set accountTier pro and credits null. -/
def upgradeUserAccount (userId : Nat) (db : DB) : DB :=
  { db with users := db.users.map (fun u =>
      if u.id == userId then { u with accountTier := "pro", credits := none } else u) }

/-- storage.updateUser as called by the webhook subscription-deleted
branch: set accountTier and credits where id. -/
def setUserTierCredits (userId : Nat) (tier : String) (credits : Option Int) (db : DB) : DB :=
  { db with users := db.users.map (fun u =>
      if u.id == userId then { u with accountTier := tier, credits := credits } else u) }

/-- storage.canUserCreateProject: pro always may; otherwise the JavaScript
test (user.credits || 0) > 0, where null coerces to 0. -/
def canUserCreateProject (userId : Nat) (db : DB) : Bool :=
  match getUser userId db with
  | none => false
  | some user =>
    if user.accountTier == "pro" then true
    else decide (0 < user.credits.getD 0)

/-- The body of POST /api/projects after insertProjectSchema.parse; the
status column defaults to pending when absent. -/
structure ProjectBody where
  name : String
  description : Option String
  status : Option String

/-- storage.createProject. -/
def createProject (userId : Nat) (b : ProjectBody) (db : DB) : Project × DB :=
  let p : Project :=
    { id := db.nextId, userId := userId, name := b.name,
      description := b.description, status := b.status.getD "pending" }
  (p, { db with projects := db.projects ++ [p], nextId := db.nextId + 1 })

/-- storage.getProject. -/
def getProject (id : Nat) (db : DB) : Option Project :=
  (db.projects.filter (fun p => p.id == id)).head?

/-- storage.updateProject as the routes call it, with a status patch. -/
def updateProjectStatus (id : Nat) (status : String) (db : DB) : DB :=
  { db with projects := db.projects.map (fun p =>
      if p.id == id then { p with status := status } else p) }

/-- One uploaded file tuple, after insertProjectFileSchema.parse. -/
structure FileInput where
  filename : String
  content : String
  path : String
  ftype : String

/-- storage.createProjectFile. -/
def createProjectFile (pid : Nat) (f : FileInput) (db : DB) : ProjectFile × DB :=
  let row : ProjectFile :=
    { id := db.nextId, projectId := pid, filename := f.filename,
      content := f.content, path := f.path, ftype := f.ftype }
  (row, { db with files := db.files ++ [row], nextId := db.nextId + 1 })

/-- storage.getProjectFiles. -/
def getProjectFiles (pid : Nat) (db : DB) : List ProjectFile :=
  db.files.filter (fun f => f.projectId == pid)

/-- storage.getAnalysisResult. -/
def getAnalysisResult (pid : Nat) (db : DB) : Option AnalysisResultRow :=
  (db.results.filter (fun r => r.projectId == pid)).head?

/-- The aggregate the AI delegate builds before persisting it. -/
structure AnalysisAcc where
  astData : List (String × Json)
  hooks : List Json
  imports : List Json

/-- storage.createAnalysisResult, applied to the delegate's aggregate
(dependencies [] and schema null, as analyzeProject initializes them). -/
def createAnalysisResult (pid : Nat) (a : AnalysisAcc) (db : DB) : AnalysisResultRow × DB :=
  let row : AnalysisResultRow :=
    { id := db.nextId, projectId := pid, astData := a.astData,
      hooks := a.hooks, imports := a.imports, dependencies := [], schemaData := Json.null }
  (row, { db with results := db.results ++ [row], nextId := db.nextId + 1 })

/-- storage.updateAnalysisResult with the delegate's aggregate. -/
def updateAnalysisResult (pid : Nat) (a : AnalysisAcc) (db : DB) : DB :=
  { db with results := db.results.map (fun r =>
      if r.projectId == pid then
        { r with astData := a.astData, hooks := a.hooks, imports := a.imports,
                 dependencies := [], schemaData := Json.null }
      else r) }

/-- The where-condition of storage.getAiChat: a truthy projectId narrows
to the pair, otherwise any chat of the user matches. -/
def chatMatches (userId : Nat) (pidFilter : Option Nat) (c : AiChat) : Bool :=
  c.userId == userId &&
    match pidFilter with
    | some p => c.projectId == some p
    | none => true

/-- JavaScript truthiness of the optional projectId argument: undefined
and 0 are falsy. -/
def pidTruthy : Option Nat → Option Nat
  | some p => if p = 0 then none else some p
  | none => none

/-- Order by updatedAt descending and take the first row (ties resolved to
the earlier row, as an arbitrary-but-fixed stand-in for the store's
unspecified tie order). -/
def pickLatest : List AiChat → Option AiChat
  | [] => none
  | c :: cs =>
    match pickLatest cs with
    | none => some c
    | some d => if d.updatedAt > c.updatedAt then some d else some c

/-- storage.getAiChat. -/
def getAiChat (userId : Nat) (projectId : Option Nat) (db : DB) : Option AiChat :=
  pickLatest (db.chats.filter (chatMatches userId (pidTruthy projectId)))

/-- storage.createAiChat; createdAt/updatedAt default to now. -/
def createAiChat (userId : Nat) (projectId : Option Nat) (messages : List ChatMsg) (db : DB) :
    AiChat × DB :=
  let (t, db1) := tick db
  let c : AiChat :=
    { id := db1.nextId, userId := userId, projectId := projectId,
      messages := messages, updatedAt := t }
  (c, { db1 with chats := db1.chats ++ [c], nextId := db1.nextId + 1 })

/-- storage.updateAiChat: replace the whole messages array and stamp
updatedAt with new Date(). -/
def updateAiChat (id : Nat) (messages : List ChatMsg) (db : DB) : DB :=
  let (t, db1) := tick db
  { db1 with chats := db1.chats.map (fun c =>
      if c.id == id then { c with messages := messages, updatedAt := t } else c) }

/-- storage.createLog. -/
def createLog (pid : Option Nat) (level message : String) (db : DB) : DB :=
  { db with logs := db.logs ++ [{ projectId := pid, level := level, message := message }] }

/-- storage.getProjectLogs: where projectId, ordered by timestamp
descending (reverse of insertion order). -/
def getProjectLogs (pid : Nat) (db : DB) : List LogRow :=
  (db.logs.filter (fun l => l.projectId == some pid)).reverse

/-! ## AI delegate (server/ai-service.ts, class AIService)

The OpenAI client is external: the environment below carries, per logical
operation, the message content the hosted model would return (none models
a response with no content). Prompt texts are pure string plumbing fed to
the oracle, so they are absorbed into the oracle arguments; in particular
the analysis-counter context that generateChatResponse splices into its
system prompt is read-only and does not affect any observable the claims
mention. -/

structure AIEnv where
  configured : Bool
  analyzeContent : String → String → Option String
  chatContent : String → Option String
  reviewContent : Option String
  schemaContent : String → Json → Option String

/-- The error thrown by AIService.checkOpenAI when no credential is set. -/
def openAiKeyMsg : String :=
  "OpenAI API key not configured. AI features are unavailable."

/-- The message of the SyntaxError JSON.parse throws on malformed text;
its exact wording only matters in that it does not contain the
configuration-error marker the upload route greps for. -/
def jsonSyntaxMsg : String := "Unexpected token in JSON"

/-- The literal fallback text given to JSON.parse when the model content
is absent or empty: the two characters of an empty object. -/
def emptyObjText : String := "\x7b\x7d"

/-- The fixed fallback text of processSchemaCommand. -/
def schemaFailText : String :=
  "\x7b\"success\": false, \"modifiedSchema\": \x7b\x7d, \"explanation\": \"Failed to process command\"\x7d"

/-- The apology generateChatResponse substitutes for missing content. -/
def apologyMsg : String :=
  "I" ++ String.mk [Char.ofNat 39] ++ "m sorry, I couldn" ++ String.mk [Char.ofNat 39] ++
    "t process your request."

/-- AIService.analyzeCode: one completion call, then
JSON.parse(content || two-brace-empty-object). The OR-fallback fires only
when the content is absent or the empty string; a non-empty malformed
content reaches JSON.parse and the SyntaxError propagates. -/
def analyzeCode (env : AIEnv) (code filename : String) : Except String Json :=
  if env.configured = false then Except.error openAiKeyMsg
  else
    let content := (env.analyzeContent code filename).getD ""
    let text := if content = "" then emptyObjText else content
    match parseJson text with
    | some j => Except.ok j
    | none => Except.error jsonSyntaxMsg

/-- AIService.processSchemaCommand: same pattern with the fixed failure
object as the OR-fallback text. -/
def processSchemaCommand (env : AIEnv) (command : String) (currentSchema : Json) :
    Except String Json :=
  if env.configured = false then Except.error openAiKeyMsg
  else
    let content := (env.schemaContent command currentSchema).getD ""
    let text := if content = "" then schemaFailText else content
    match parseJson text with
    | some j => Except.ok j
    | none => Except.error jsonSyntaxMsg

/-- AIService.generateChatResponse: checkOpenAI, one completion call, and
the fixed apology when the model returns no content. -/
def generateChatResponse (env : AIEnv) (message : String) : Except String String :=
  if env.configured = false then Except.error openAiKeyMsg
  else Except.ok ((env.chatContent message).getD apologyMsg)

/-- AIService.generateCodeReview: requires a stored AnalysisResult, then
one completion parsed with the empty-object OR-fallback. -/
def generateCodeReview (env : AIEnv) (pid : Nat) (db : DB) : Except String Json :=
  if env.configured = false then Except.error openAiKeyMsg
  else
    match getAnalysisResult pid db with
    | none => Except.error "No analysis data found for project"
    | some _ =>
      let content := env.reviewContent.getD ""
      let text := if content = "" then emptyObjText else content
      match parseJson text with
      | some j => Except.ok j
      | none => Except.error jsonSyntaxMsg

/-- Property read on a parsed JSON value, as JavaScript dot access:
present field, or none for undefined. -/
def jsGet (j : Json) (k : String) : Option Json :=
  match j with
  | Json.obj fs => ((fs.filter (fun kv => kv.1 == k)).head?).map (fun kv => kv.2)
  | _ => none

/-- Array spread as push(...x) accepts it: arrays spread to their
elements, strings to their characters, anything else throws. -/
def jsSpread : Option Json → Option (List Json)
  | some (Json.arr xs) => some xs
  | some (Json.str s) => some (s.data.map (fun c => Json.str (String.mk [c])))
  | _ => none

/-- The loop body of AIService.analyzeProject for one file, inside its
try/catch: a failed or malformed per-file analysis is swallowed. Property
access on a parsed null throws (caught); the astData entry is recorded
before the hook spread can throw, and the import spread runs only if the
hook spread succeeded, mirroring statement order. Undefined entry fields
are rendered as null (the difference is dropped at serialization and
never read back). -/
def analyzeFileStep (env : AIEnv) (acc : AnalysisAcc) (f : ProjectFile) : AnalysisAcc :=
  match analyzeCode env f.content f.filename with
  | Except.error _ => acc
  | Except.ok parsed =>
    match parsed with
    | Json.null => acc
    | _ =>
      let entry := Json.obj
        [("summary", (jsGet parsed "summary").getD Json.null),
         ("hooks", (jsGet parsed "hooks").getD Json.null),
         ("imports", (jsGet parsed "imports").getD Json.null)]
      let acc1 := { acc with astData := acc.astData ++ [(f.filename, entry)] }
      match jsSpread (jsGet parsed "hooks") with
      | none => acc1
      | some hs =>
        let acc2 := { acc1 with hooks := acc1.hooks ++ hs }
        match jsSpread (jsGet parsed "imports") with
        | none => acc2
        | some ims => { acc2 with imports := acc2.imports ++ ims }

/-- AIService.analyzeProject: checkOpenAI, re-read the project's files,
fold the per-file step over them (per-file failures caught inside the
loop), then create the AnalysisResult row or update it in place. -/
def analyzeProject (env : AIEnv) (pid : Nat) (db : DB) : Except String DB :=
  if env.configured = false then Except.error openAiKeyMsg
  else
    let files := getProjectFiles pid db
    let acc := files.foldl (analyzeFileStep env) { astData := [], hooks := [], imports := [] }
    match getAnalysisResult pid db with
    | some _ => Except.ok (updateAnalysisResult pid acc db)
    | none => Except.ok (createAnalysisResult pid acc db).2

/-! ## HTTP route handlers (registerRoutes)

Each handler takes the x-firebase-uid header (none = absent), its path and
body parameters, and the store; it returns the serialized outcome and the
store after the request. The requireAuth middleware is the leading
header-match of every guarded handler. -/

/-- A JSON response: a body on success, or an HTTP status with an error
string. -/
inductive ApiResp (α : Type) where
  | ok (body : α)
  | err (status : Nat) (error : String)
deriving DecidableEq

/-- POST /api/users: storage.createUser on the raw request body, with no
ownership or shape gate beyond the insert itself. -/
def createUserRoute (body : InsertUser) (db : DB) : ApiResp User × DB :=
  let (u, db1) := createUser body db
  (ApiResp.ok u, db1)

/-- The response of POST /api/projects; the credit rejection carries the
caller's current tier and balance alongside the error string. -/
inductive CreateProjectResp where
  | ok (project : Project)
  | err (status : Nat) (error : String)
  | errCredits (status : Nat) (error : String) (accountTier : String) (credits : Option Int)
deriving DecidableEq

/-- POST /api/projects: auth, resolve the user, credit/tier gate, insert
the project, deduct one credit for a free-tier user with non-null credits,
and write an INFO log. -/
def createProjectRoute (uidHeader : Option String) (body : ProjectBody) (db : DB) :
    CreateProjectResp × DB :=
  match uidHeader with
  | none => (CreateProjectResp.err 401 "Authentication required", db)
  | some uid =>
    match getUserByFirebaseUid uid db with
    | none => (CreateProjectResp.err 404 "User not found", db)
    | some user =>
      if canUserCreateProject user.id db = false then
        (CreateProjectResp.errCredits 403 "Insufficient credits. Upgrade to Pro or contact support."
          user.accountTier user.credits, db)
      else
        let (project, db1) := createProject user.id body db
        let db2 :=
          if user.accountTier = "free" ∧ user.credits ≠ none then
            updateUserCredits user.id (user.credits.getD 0 - 1) db1
          else db1
        let db3 := createLog (some project.id) "INFO"
          ("Project \"" ++ project.name ++ "\" created") db2
        (CreateProjectResp.ok project, db3)

/-- GET /api/projects/:id: auth, 404 on a missing project, 403 unless the
resolved user owns it. Read-only. -/
def getProjectRoute (uidHeader : Option String) (pid : Nat) (db : DB) : ApiResp Project :=
  match uidHeader with
  | none => ApiResp.err 401 "Authentication required"
  | some uid =>
    match getProject pid db with
    | none => ApiResp.err 404 "Project not found"
    | some project =>
      match getUserByFirebaseUid uid db with
      | none => ApiResp.err 403 "Access denied"
      | some user =>
        if project.userId ≠ user.id then ApiResp.err 403 "Access denied"
        else ApiResp.ok project

/-- The response of POST /api/projects/:id/files. -/
inductive UploadResp where
  | ok (files : List ProjectFile)
  | err (status : Nat) (error : String)
deriving DecidableEq

/-- The per-file persistence loop of the upload route: save each tuple
and write one INFO log per file. -/
def saveFilesLoop (pid : Nat) (files : List FileInput) (db : DB) : List ProjectFile × DB :=
  match files with
  | [] => ([], db)
  | f :: rest =>
    let (row, db1) := createProjectFile pid f db
    let db2 := createLog (some pid) "INFO" ("File \"" ++ f.filename ++ "\" uploaded") db1
    let (rows, db3) := saveFilesLoop pid rest db2
    (row :: rows, db3)

/-- POST /api/projects/:id/files: auth, 404, ownership 403; then status
processing, persist every file with a log each, and run the analysis in a
try/catch: success stamps completed plus a SUCCESS log; a failure whose
message includes the missing-credential marker still stamps completed with
a WARNING log; any other failure stamps error, writes an ERROR log and
rethrows into the outer catch, a 500. -/
def uploadFilesRoute (env : AIEnv) (uidHeader : Option String) (pid : Nat)
    (files : List FileInput) (db : DB) : UploadResp × DB :=
  match uidHeader with
  | none => (UploadResp.err 401 "Authentication required", db)
  | some uid =>
    match getProject pid db with
    | none => (UploadResp.err 404 "Project not found", db)
    | some project =>
      match getUserByFirebaseUid uid db with
      | none => (UploadResp.err 403 "Access denied", db)
      | some user =>
        if project.userId ≠ user.id then (UploadResp.err 403 "Access denied", db)
        else
          let db1 := updateProjectStatus pid "processing" db
          let (savedFiles, db2) := saveFilesLoop pid files db1
          match analyzeProject env pid db2 with
          | Except.ok db3 =>
            let db4 := updateProjectStatus pid "completed" db3
            let db5 := createLog (some pid) "SUCCESS"
              "Project analysis completed successfully" db4
            (UploadResp.ok savedFiles, db5)
          | Except.error e =>
            if jsIncludes e "OpenAI API key not configured" then
              let db3 := updateProjectStatus pid "completed" db2
              let db4 := createLog (some pid) "WARNING"
                "Files uploaded successfully, AI analysis skipped (OpenAI API key not configured)"
                db3
              (UploadResp.ok savedFiles, db4)
            else
              let db3 := updateProjectStatus pid "error" db2
              let db4 := createLog (some pid) "ERROR" "Project analysis failed" db3
              (UploadResp.err 500 "Failed to upload files", db4)

/-- GET /api/projects/:id/results: auth, 404, ownership 403, then the
stored row or (as none) the empty-shaped default object. Read-only. -/
def getResultsRoute (uidHeader : Option String) (pid : Nat) (db : DB) :
    ApiResp (Option AnalysisResultRow) :=
  match uidHeader with
  | none => ApiResp.err 401 "Authentication required"
  | some uid =>
    match getProject pid db with
    | none => ApiResp.err 404 "Project not found"
    | some project =>
      match getUserByFirebaseUid uid db with
      | none => ApiResp.err 403 "Access denied"
      | some user =>
        if project.userId ≠ user.id then ApiResp.err 403 "Access denied"
        else ApiResp.ok (getAnalysisResult pid db)

/-- GET /api/projects/:id/logs: auth, 404, ownership 403, then the
project's logs. Read-only. -/
def getLogsRoute (uidHeader : Option String) (pid : Nat) (db : DB) : ApiResp (List LogRow) :=
  match uidHeader with
  | none => ApiResp.err 401 "Authentication required"
  | some uid =>
    match getProject pid db with
    | none => ApiResp.err 404 "Project not found"
    | some project =>
      match getUserByFirebaseUid uid db with
      | none => ApiResp.err 403 "Access denied"
      | some user =>
        if project.userId ≠ user.id then ApiResp.err 403 "Access denied"
        else ApiResp.ok (getProjectLogs pid db)

/-- GET /api/ai/chat/:userId: requireAuth and then storage.getAiChat on
the raw path and query parameters; the caller identity is never resolved
and no ownership comparison happens. The serialized body is the messages
array of chat-or-empty-default. Read-only. -/
def getChatRoute (uidHeader : Option String) (userIdParam : Nat) (projectIdQuery : Option Nat)
    (db : DB) : ApiResp (List ChatMsg) :=
  match uidHeader with
  | none => ApiResp.err 401 "Authentication required"
  | some _ =>
    match getAiChat userIdParam projectIdQuery db with
    | some chat => ApiResp.ok chat.messages
    | none => ApiResp.ok []

/-- POST /api/ai/review/:projectId: auth, 404, ownership 403, then the
review delegate; a delegate failure is the catch-all 500. Read-only on
the store. -/
def reviewRoute (env : AIEnv) (uidHeader : Option String) (pid : Nat) (db : DB) : ApiResp Json :=
  match uidHeader with
  | none => ApiResp.err 401 "Authentication required"
  | some uid =>
    match getProject pid db with
    | none => ApiResp.err 404 "Project not found"
    | some project =>
      match getUserByFirebaseUid uid db with
      | none => ApiResp.err 403 "Access denied"
      | some user =>
        if project.userId ≠ user.id then ApiResp.err 403 "Access denied"
        else
          match generateCodeReview env pid db with
          | Except.ok review => ApiResp.ok review
          | Except.error _ => ApiResp.err 500 "Failed to generate code review"

/-- The response of POST /api/users/:id/upgrade. -/
inductive UpgradeResp where
  | ok
  | err (status : Nat) (error : String)
deriving DecidableEq

/-- POST /api/users/:id/upgrade: auth, 404 on a missing target, 403
unless the requester is the target, then upgradeUserAccount and an INFO
log with a null projectId. -/
def upgradeRoute (uidHeader : Option String) (userIdParam : Nat) (db : DB) : UpgradeResp × DB :=
  match uidHeader with
  | none => (UpgradeResp.err 401 "Authentication required", db)
  | some uid =>
    match getUser userIdParam db with
    | none => (UpgradeResp.err 404 "User not found", db)
    | some user =>
      match getUserByFirebaseUid uid db with
      | none => (UpgradeResp.err 403 "Access denied", db)
      | some requester =>
        if requester.id ≠ userIdParam then (UpgradeResp.err 403 "Access denied", db)
        else
          let db1 := upgradeUserAccount userIdParam db
          let db2 := createLog none "INFO"
            ("User " ++ user.email ++ " upgraded to Pro account") db1
          (UpgradeResp.ok, db2)

/-- A Stripe webhook event after stripe.webhooks.constructEvent and the
customer retrieval: the subscription events carry the internal user id
from the customer metadata (none when absent or non-truthy) and, for the
activation pair, the subscription status. -/
inductive StripeEvent where
  | subActive (userMeta : Option Nat) (status : String)
  | subDeleted (userMeta : Option Nat)
  | other
deriving DecidableEq

/-- POST /api/stripe/webhook. The eventOpt argument is the outcome of
constructEvent against the configured secret: none models the thrown
signature-verification error, answered 400 before any state is touched.
An active created-or-updated subscription upgrades the metadata user and
logs it; a deleted subscription resets the user to the free tier with one
credit; other event types fall through to the 200. -/
def stripeWebhookRoute (eventOpt : Option StripeEvent) (db : DB) : (Nat × String) × DB :=
  match eventOpt with
  | none => ((400, "Webhook Error"), db)
  | some ev =>
    match ev with
    | StripeEvent.subActive userMeta status =>
      match userMeta with
      | some userId =>
        if status = "active" then
          let db1 := upgradeUserAccount userId db
          let db2 := createLog none "INFO" "Subscription activated for user" db1
          ((200, "Received"), db2)
        else ((200, "Received"), db)
      | none => ((200, "Received"), db)
    | StripeEvent.subDeleted userMeta =>
      match userMeta with
      | some userId => ((200, "Received"), setUserTierCredits userId "free" (some 1) db)
      | none => ((200, "Received"), db)
    | StripeEvent.other => ((200, "Received"), db)

/-! ## Real-time chat relay (the wss ai_chat message handler) -/

/-- An inbound socket frame tagged ai_chat. -/
structure ChatIncoming where
  userId : Nat
  projectId : Option Nat
  content : String

/-- The ai_response frame pushed back on the socket. -/
structure WsFrame where
  content : String
  timestamp : Nat
deriving DecidableEq

/-- The ai_chat branch of the socket message handler: fetch-or-create the
chat, append a user entry stamped now, ask the delegate, append an
assistant entry stamped now, persist the whole list, and answer with an
ai_response frame stamped now. A delegate failure propagates to the
handler's catch, which answers an error frame instead (the Except.error
case). -/
def wsAiChat (env : AIEnv) (m : ChatIncoming) (db : DB) : Except String (WsFrame × DB) :=
  let fetched := getAiChat m.userId m.projectId db
  let chatAndDb :=
    match fetched with
    | some c => (c, db)
    | none => createAiChat m.userId m.projectId [] db
  let chat := chatAndDb.1
  let db1 := chatAndDb.2
  let (t1, db2) := tick db1
  let msgs1 := chat.messages ++ [{ role := "user", content := m.content, timestamp := t1 }]
  match generateChatResponse env m.content with
  | Except.error e => Except.error e
  | Except.ok aiResponse =>
    let (t2, db3) := tick db2
    let msgs2 := msgs1 ++ [{ role := "assistant", content := aiResponse, timestamp := t2 }]
    let db4 := updateAiChat chat.id msgs2 db3
    let (t3, db5) := tick db4
    Except.ok ({ content := aiResponse, timestamp := t3 }, db5)

/-! ## Concrete fixtures for the closed instances -/

/-- An empty store. -/
def emptyDb : DB :=
  { users := [], projects := [], files := [], results := [], chats := [], logs := [],
    nextId := 1, clock := 0 }

/-- A free-tier user with one credit. -/
def uA : User :=
  { id := 1, firebaseUid := "uid-a", email := "a@example.com", displayName := none,
    photoURL := none, accountTier := "free", credits := some 1, stripeCustomerId := none }

/-- A second free-tier user. -/
def uB : User :=
  { id := 2, firebaseUid := "uid-b", email := "b@example.com", displayName := none,
    photoURL := none, accountTier := "free", credits := some 1, stripeCustomerId := none }

/-- The first user with an exhausted balance. -/
def uFree0 : User := { uA with credits := some 0 }

/-- The first user on the pro tier (credits null). -/
def uPro : User := { uA with accountTier := "pro", credits := none }

/-- A chat message persisted for the second user. -/
def msgB : ChatMsg := { role := "user", content := "hello from B", timestamp := 0 }

/-- A chat row owned by the second user. -/
def chatB : AiChat := { id := 4, userId := 2, projectId := none, messages := [msgB], updatedAt := 0 }

/-- A project owned by the second user. -/
def projB : Project := { id := 3, userId := 2, name := "bees", description := none, status := "pending" }

/-- A project owned by the first user. -/
def projA : Project := { id := 3, userId := 1, name := "alpha", description := none, status := "pending" }

/-- A store with both users, the second user's project and chat. -/
def dbC1 : DB :=
  { users := [uA, uB], projects := [projB], files := [], results := [], chats := [chatB],
    logs := [], nextId := 10, clock := 1 }

/-- A store with the exhausted user only. -/
def dbC3 : DB := { emptyDb with users := [uFree0] }

/-- A store with the one-credit user. -/
def dbC4free : DB := { emptyDb with users := [uA], nextId := 5 }

/-- A store with the pro user. -/
def dbC4pro : DB := { emptyDb with users := [uPro], nextId := 5 }

/-- A store with the first user owning a pending project. -/
def dbC5 : DB := { emptyDb with users := [uA], projects := [projA], nextId := 10 }

/-- One uploaded file tuple. -/
def exFile : FileInput :=
  { filename := "Foo.tsx", content := "const x = 1", path := "src/Foo.tsx", ftype := "tsx" }

/-- The delegate with no credential configured. -/
def envOff : AIEnv :=
  { configured := false, analyzeContent := fun _ _ => none, chatContent := fun _ => none,
    reviewContent := none, schemaContent := fun _ _ => none }

/-- A configured delegate whose model returns empty content. -/
def envOn : AIEnv := { envOff with configured := true }

/-- A configured delegate whose model returns non-JSON content. -/
def envBadJson : AIEnv :=
  { configured := true, analyzeContent := fun _ _ => some "not-json",
    chatContent := fun _ => some "ok", reviewContent := some "not-json",
    schemaContent := fun _ _ => some "not-json" }

/-- A create-user body that leaves tier and credits to their defaults. -/
def freeDefaultBody : InsertUser :=
  { firebaseUid := "u7", email := "u7@example.com", displayName := none, photoURL := none,
    accountTier := none, credits := none, stripeCustomerId := none }

/-- A create-user body that explicitly requests the pro tier with a
non-null balance. -/
def proBody : InsertUser :=
  { freeDefaultBody with
    firebaseUid := "u9", accountTier := some "pro", credits := some (some 5) }

/-- The documented invariant: a pro user's balance is null. -/
@[reducible] def proImpliesNullCredits (db : DB) : Prop :=
  ∀ u ∈ db.users, u.accountTier = "pro" → u.credits = none

/-- Primary-key discipline on the users table. -/
@[reducible] def uniqueUserIds (db : DB) : Prop :=
  db.users.Pairwise (fun a b => a.id ≠ b.id)

/-- The log severity set documented on the logs.level column in
shared/schema.ts. -/
def documentedLogLevels : List String := ["INFO", "DEBUG", "WARN", "ERROR", "SUCCESS"]

/-! ## Helper lemmas -/

theorem head?_eq_some_mem {α : Type} {l : List α} {x : α} (h : l.head? = some x) : x ∈ l := by
  cases l with
  | nil => simp at h
  | cons a as =>
    simp only [List.head?_cons, Option.some.injEq] at h
    subst h
    exact List.mem_cons_self _ _

theorem head?_filter_spec {α : Type} {l : List α} {p : α → Bool} {x : α}
    (h : (l.filter p).head? = some x) : x ∈ l ∧ p x = true :=
  List.mem_filter.mp (head?_eq_some_mem h)

theorem filter_map_comm {α : Type} (l : List α) (f : α → α) (p : α → Bool)
    (h : ∀ x, p (f x) = p x) : (l.map f).filter p = (l.filter p).map f := by
  induction l with
  | nil => rfl
  | cons a as ih =>
    simp only [List.map_cons, List.filter_cons, h a]
    cases ha : p a <;> simp [ih]

theorem head?_filter_map {α : Type} (l : List α) (f : α → α) (p : α → Bool)
    (h : ∀ x, p (f x) = p x) :
    ((l.map f).filter p).head? = ((l.filter p).head?).map f := by
  rw [filter_map_comm l f p h, List.head?_map]

theorem pairwise_id_unique {l : List User} (h : l.Pairwise (fun a b => a.id ≠ b.id))
    {u v : User} (hu : u ∈ l) (hv : v ∈ l) (heq : u.id = v.id) : u = v := by
  induction l with
  | nil => cases hu
  | cons a as ih =>
    rcases List.pairwise_cons.mp h with ⟨ha, has⟩
    rcases List.mem_cons.mp hu with hu1 | hu2 <;> rcases List.mem_cons.mp hv with hv1 | hv2
    · rw [hu1, hv1]
    · exact absurd heq (hu1 ▸ ha v hv2)
    · exact absurd heq.symm (hv1 ▸ ha u hu2)
    · exact ih has hu2 hv2

/-! ## Claim theorems -/

/-- C1 (amended): for every project-keyed endpoint (project detail, file
upload, results, logs, code review), a request whose resolved caller does
not own the targeted project fails 403 before any operation is performed
(the store is untouched); the chat-history endpoint, by contrast, performs
no such check (see the counterexample). -/
theorem c1_project_ownership_enforced (env : AIEnv) (uid : String) (pid : Nat)
    (files : List FileInput) (db : DB) (p : Project) (u : User)
    (hp : getProject pid db = some p)
    (hu : getUserByFirebaseUid uid db = some u)
    (hne : p.userId ≠ u.id) :
    getProjectRoute (some uid) pid db = ApiResp.err 403 "Access denied" ∧
    uploadFilesRoute env (some uid) pid files db = (UploadResp.err 403 "Access denied", db) ∧
    getResultsRoute (some uid) pid db = ApiResp.err 403 "Access denied" ∧
    getLogsRoute (some uid) pid db = ApiResp.err 403 "Access denied" ∧
    reviewRoute env (some uid) pid db = ApiResp.err 403 "Access denied" := by
  refine ⟨?_, ?_, ?_, ?_, ?_⟩
  · simp [getProjectRoute, hp, hu, hne]
  · simp [uploadFilesRoute, hp, hu, hne]
  · simp [getResultsRoute, hp, hu, hne]
  · simp [getLogsRoute, hp, hu, hne]
  · simp [reviewRoute, hp, hu, hne]

/-- C1 witness: user B's project, requested with user A's identity, is
refused 403 on all five project-keyed endpoints with the store untouched. -/
theorem c1_project_ownership_witness :
    getProjectRoute (some "uid-a") 3 dbC1 = ApiResp.err 403 "Access denied" ∧
    uploadFilesRoute envOff (some "uid-a") 3 [exFile] dbC1 =
      (UploadResp.err 403 "Access denied", dbC1) ∧
    getResultsRoute (some "uid-a") 3 dbC1 = ApiResp.err 403 "Access denied" ∧
    getLogsRoute (some "uid-a") 3 dbC1 = ApiResp.err 403 "Access denied" ∧
    reviewRoute envOff (some "uid-a") 3 dbC1 = ApiResp.err 403 "Access denied" :=
  c1_project_ownership_enforced envOff "uid-a" 3 [exFile] dbC1 projB uA
    (by rfl) (by rfl) (by decide)

/-- C1 counterexample: GET /api/ai/chat/:userId applies no ownership
check. User A (id 1) authenticates with a valid identity header and
requests the chat history of user 2; the handler returns user B's
messages with a success body, not a 403. -/
theorem c1_chat_ownership_counterexample :
    getChatRoute (some "uid-a") 2 none dbC1 = ApiResp.ok [msgB] ∧
    getUserByFirebaseUid "uid-a" dbC1 = some uA ∧
    uA.id = 1 ∧ chatB.userId = 2 ∧ (2 : Nat) ≠ 1 :=
  ⟨rfl, rfl, rfl, rfl, by decide⟩

/-- C3: a free-tier user whose remaining balance, with null read as zero,
is not above zero has project creation rejected with the caller's current
tier and balance in the error payload, and the store is returned
unchanged: no Project row is written and credits are not mutated. -/
theorem c3_quota_rejection (uid : String) (body : ProjectBody) (db : DB) (u : User)
    (hu : getUserByFirebaseUid uid db = some u)
    (hid : getUser u.id db = some u)
    (htier : u.accountTier = "free")
    (hcred : u.credits.getD 0 ≤ 0) :
    createProjectRoute (some uid) body db =
      (CreateProjectResp.errCredits 403
        "Insufficient credits. Upgrade to Pro or contact support." u.accountTier u.credits, db) := by
  have hcan : canUserCreateProject u.id db = false := by
    unfold canUserCreateProject
    rw [hid]
    have h1 : (u.accountTier == "pro") = false := by rw [htier]; rfl
    simp [h1, decide_eq_false_iff_not]
    omega
  simp [createProjectRoute, hu, hcan]

/-- C3 witness: the exhausted free user's creation attempt returns the
credit error carrying tier "free" and balance 0, with the store
unchanged. -/
theorem c3_quota_rejection_witness :
    createProjectRoute (some "uid-a") { name := "P", description := none, status := none } dbC3 =
      (CreateProjectResp.errCredits 403
        "Insufficient credits. Upgrade to Pro or contact support." "free" (some 0), dbC3) :=
  c3_quota_rejection "uid-a" { name := "P", description := none, status := none } dbC3 uFree0
    (by rfl) (by rfl) (by rfl) (by decide)

/-- C7 (code bug): the degraded-mode upload writes a log whose level is
the string WARNING, which is outside the severity set documented on the
logs.level column; it is the only such log the request writes. -/
theorem c7_warning_level_outside_documented_set :
    ((uploadFilesRoute envOff (some "uid-a") 3 [exFile] dbC5).2.logs.filter
        (fun l => !(documentedLogLevels.contains l.level))).map LogRow.level = ["WARNING"] ∧
    documentedLogLevels.contains "WARNING" = false :=
  ⟨rfl, rfl⟩

/-- C9: a webhook payload whose signature does not verify (constructEvent
throws, the none case) is answered 400 and mutates nothing: the store,
and in particular every user row and the log table, is returned as it
came. -/
theorem c9_webhook_signature_mismatch (db : DB) :
    stripeWebhookRoute none db = ((400, "Webhook Error"), db) ∧
    (stripeWebhookRoute none db).2.users = db.users ∧
    (stripeWebhookRoute none db).2.logs = db.logs :=
  ⟨rfl, rfl, rfl⟩

/-- Upgrading an account to pro leaves its credits null, preserving the
pro-implies-null invariant. -/
theorem pro_null_upgrade (userId : Nat) (db : DB) (h : proImpliesNullCredits db) :
    proImpliesNullCredits (upgradeUserAccount userId db) := by
  intro w hw
  simp only [upgradeUserAccount, List.mem_map] at hw
  rcases hw with ⟨v, hv, rfl⟩
  by_cases hid : (v.id == userId) = true
  · simp [hid]
  · simp [hid]
    exact h v hv

/-- The webhook downgrade writes the free tier, preserving the invariant. -/
theorem pro_null_setFree (userId : Nat) (db : DB) (h : proImpliesNullCredits db) :
    proImpliesNullCredits (setUserTierCredits userId "free" (some 1) db) := by
  intro w hw
  simp only [setUserTierCredits, List.mem_map] at hw
  rcases hw with ⟨v, hv, rfl⟩
  by_cases hid : (v.id == userId) = true
  · simp [hid]
  · simp [hid]
    exact h v hv

/-- Writing a log row does not touch the users table. -/
theorem pro_null_createLog (pid : Option Nat) (lv msg : String) (db : DB)
    (h : proImpliesNullCredits db) : proImpliesNullCredits (createLog pid lv msg db) := h

/-- C2 (amended): a user created with a body that leaves accountTier and
credits to their column defaults starts as free with one credit, and the
tier-and-credit mutators reachable from the routes (manual upgrade, the
webhook's upgrade and downgrade branches, and the project-creation credit
deduction, the latter under primary-key discipline) preserve the
invariant that a pro user's credits are null. POST /api/users itself
inserts the raw request body, so the unqualified claim fails there (see
the counterexample). -/
theorem c2_pro_null_invariant :
    (∀ b db, b.accountTier = none → b.credits = none →
      (createUser b db).1.accountTier = "free" ∧ (createUser b db).1.credits = some 1) ∧
    (∀ userId db, proImpliesNullCredits db →
      proImpliesNullCredits (upgradeUserAccount userId db)) ∧
    (∀ hdr userId db, proImpliesNullCredits db →
      proImpliesNullCredits (upgradeRoute hdr userId db).2) ∧
    (∀ ev db, proImpliesNullCredits db →
      proImpliesNullCredits (stripeWebhookRoute ev db).2) ∧
    (∀ hdr body db, proImpliesNullCredits db → uniqueUserIds db →
      proImpliesNullCredits (createProjectRoute hdr body db).2) := by
  refine ⟨?_, pro_null_upgrade, ?_, ?_, ?_⟩
  · intro b db ht hc
    simp [createUser, ht, hc]
  · intro hdr userId db h
    cases hdr with
    | none => exact h
    | some uid =>
      simp only [upgradeRoute]
      cases hgu : getUser userId db with
      | none => exact h
      | some user =>
        cases hreq : getUserByFirebaseUid uid db with
        | none => exact h
        | some requester =>
          by_cases hid : requester.id ≠ userId
          · simp [hid]; exact h
          · simp [hid]
            exact pro_null_createLog _ _ _ _ (pro_null_upgrade _ _ h)
  · intro ev db h
    cases ev with
    | none => exact h
    | some e =>
      cases e with
      | subActive meta status =>
        cases meta with
        | none => exact h
        | some userId =>
          by_cases hs : status = "active"
          · simp only [stripeWebhookRoute, hs, if_pos rfl]
            exact pro_null_createLog _ _ _ _ (pro_null_upgrade _ _ h)
          · simp only [stripeWebhookRoute, if_neg hs]
            exact h
      | subDeleted meta =>
        cases meta with
        | none => exact h
        | some userId => exact pro_null_setFree _ _ h
      | other => exact h
  · intro hdr body db h huniq
    cases hdr with
    | none => exact h
    | some uid =>
      cases hu : getUserByFirebaseUid uid db with
      | none =>
        simp only [createProjectRoute, hu]
        exact h
      | some user =>
        by_cases hcan : canUserCreateProject user.id db = false
        · simp only [createProjectRoute, hu, hcan, if_pos rfl]
          exact h
        · by_cases hded : user.accountTier = "free" ∧ user.credits ≠ none
          · have husers : (createProjectRoute (some uid) body db).2.users =
                db.users.map (fun v => if (v.id == user.id) = true then
                  { v with credits := some (user.credits.getD 0 - 1) } else v) := by
              simp [createProjectRoute, hu, hcan, hded, createLog, updateUserCredits,
                createProject]
            intro w hw
            rw [husers] at hw
            rcases List.mem_map.mp hw with ⟨v, hv, rfl⟩
            by_cases hid : (v.id == user.id) = true
            · have hideq : v.id = user.id := by simpa using hid
              have hveq : v = user :=
                pairwise_id_unique huniq hv (head?_filter_spec hu).1 hideq
              subst hveq
              rw [if_pos hid]
              intro hpro
              have hcontra : v.accountTier = "pro" := hpro
              rw [hded.1] at hcontra
              exact absurd hcontra (by decide)
            · rw [if_neg hid]
              exact h v hv
          · have husers : (createProjectRoute (some uid) body db).2.users = db.users := by
              simp [createProjectRoute, hu, hcan, hded, createLog, createProject]
            intro w hw
            rw [husers] at hw
            exact h w hw

/-- C2 witness: default creation yields free with one credit; the
upgrade, downgrade, and creation-deduction paths preserve the invariant
on concrete stores. -/
theorem c2_pro_null_invariant_witness :
    ((createUser freeDefaultBody emptyDb).1.accountTier = "free" ∧
     (createUser freeDefaultBody emptyDb).1.credits = some 1) ∧
    proImpliesNullCredits (upgradeUserAccount 1 dbC4free) ∧
    proImpliesNullCredits
      (stripeWebhookRoute (some (StripeEvent.subDeleted (some 1))) dbC4pro).2 ∧
    proImpliesNullCredits
      (createProjectRoute (some "uid-a")
        { name := "P", description := none, status := none } dbC4free).2 :=
  ⟨c2_pro_null_invariant.1 freeDefaultBody emptyDb rfl rfl,
   c2_pro_null_invariant.2.1 1 dbC4free (by decide),
   c2_pro_null_invariant.2.2.2.1 (some (StripeEvent.subDeleted (some 1))) dbC4pro (by decide),
   c2_pro_null_invariant.2.2.2.2 (some "uid-a")
     { name := "P", description := none, status := none } dbC4free (by decide) (by decide)⟩

/-- C2 counterexample: POST /api/users inserts the request body as-is,
so a body explicitly carrying the pro tier with a non-null balance
creates a reachable user row that is pro with credits 5, violating the
invariant; the freshly created user is neither free nor one-credit. -/
theorem c2_create_user_counterexample :
    (createUserRoute proBody emptyDb).1 = ApiResp.ok
      { id := 1, firebaseUid := "u9", email := "u7@example.com", displayName := none,
        photoURL := none, accountTier := "pro", credits := some 5,
        stripeCustomerId := none } ∧
    ¬ proImpliesNullCredits (createUserRoute proBody emptyDb).2 :=
  ⟨rfl, by decide⟩

/-- The text fed to JSON.parse for absent content in analyzeCode parses
to the empty object. -/
theorem parse_emptyObj : parseJson emptyObjText = some (Json.obj []) := rfl

/-- The fixed fallback text of processSchemaCommand parses to the failure
object. -/
theorem parse_schemaFail : parseJson schemaFailText = some (Json.obj
    [("success", Json.bool false), ("modifiedSchema", Json.obj []),
     ("explanation", Json.str "Failed to process command")]) := rfl

/-- C6 (amended): with a configured delegate, absent or empty model
content makes analyzeCode return the empty object and
processSchemaCommand the fixed failure object; but non-empty content that
is not well-formed JSON reaches JSON.parse and the SyntaxError
propagates — the operations do throw on malformed model output. -/
theorem c6_parse_fallback (env : AIEnv) (code filename command : String) (cur : Json)
    (hconf : env.configured = true) :
    (env.analyzeContent code filename = none ∨ env.analyzeContent code filename = some "" →
      analyzeCode env code filename = Except.ok (Json.obj [])) ∧
    (env.schemaContent command cur = none ∨ env.schemaContent command cur = some "" →
      processSchemaCommand env command cur = Except.ok (Json.obj
        [("success", Json.bool false), ("modifiedSchema", Json.obj []),
         ("explanation", Json.str "Failed to process command")])) ∧
    (∀ s, env.analyzeContent code filename = some s → s ≠ "" → parseJson s = none →
      analyzeCode env code filename = Except.error jsonSyntaxMsg) ∧
    (∀ s, env.schemaContent command cur = some s → s ≠ "" → parseJson s = none →
      processSchemaCommand env command cur = Except.error jsonSyntaxMsg) := by
  refine ⟨?_, ?_, ?_, ?_⟩
  · intro h
    rcases h with h | h <;>
      simp [analyzeCode, hconf, h, parse_emptyObj]
  · intro h
    rcases h with h | h <;>
      simp [processSchemaCommand, hconf, h, parse_schemaFail]
  · intro s hs hne hparse
    simp [analyzeCode, hconf, hs, hne, hparse]
  · intro s hs hne hparse
    simp [processSchemaCommand, hconf, hs, hne, hparse]

/-- C6 witness: a configured delegate returning empty content yields the
empty object and the fixed failure object, and one returning non-JSON
content yields the propagated parse error. -/
theorem c6_parse_fallback_witness :
    analyzeCode envOn "const x = 1" "App.tsx" = Except.ok (Json.obj []) ∧
    processSchemaCommand envOn "add a field" Json.null = Except.ok (Json.obj
      [("success", Json.bool false), ("modifiedSchema", Json.obj []),
       ("explanation", Json.str "Failed to process command")]) ∧
    analyzeCode envBadJson "const y = 2" "Bar.tsx" = Except.error jsonSyntaxMsg :=
  ⟨(c6_parse_fallback envOn "const x = 1" "App.tsx" "add a field" Json.null rfl).1 (Or.inl rfl),
   (c6_parse_fallback envOn "const x = 1" "App.tsx" "add a field" Json.null rfl).2.1 (Or.inl rfl),
   (c6_parse_fallback envBadJson "const y = 2" "Bar.tsx" "c" Json.null rfl).2.2.1 "not-json"
     rfl (by decide) rfl⟩

/-- C6 counterexample: malformed (non-empty, non-JSON) model content
makes both operations throw the parse error instead of returning the
empty-object or fixed-failure result the claim promises. -/
theorem c6_malformed_throws_counterexample :
    analyzeCode envBadJson "const x = 1" "App.tsx" = Except.error jsonSyntaxMsg ∧
    processSchemaCommand envBadJson "add a field" Json.null = Except.error jsonSyntaxMsg ∧
    analyzeCode envBadJson "const x = 1" "App.tsx" ≠ Except.ok (Json.obj []) := by
  refine ⟨rfl, rfl, ?_⟩
  intro h
  simp [analyzeCode, envBadJson] at h
  cases h

/-- Updating a user's credits rewrites exactly that user's row as seen by
getUser. -/
theorem getUser_updateUserCredits (id : Nat) (v : Int) (db : DB) (u : User)
    (h : getUser id db = some u) :
    getUser id (updateUserCredits id v db) = some { u with credits := some v } := by
  have hpu : u.id = id := by simpa using (head?_filter_spec h).2
  unfold getUser updateUserCredits
  rw [head?_filter_map]
  · unfold getUser at h
    rw [h]
    simp [hpu]
  · intro x
    by_cases hx : (x.id == id) = true <;> simp [hx]

/-- Updating a project's status rewrites exactly that project's row as
seen by getProject. -/
theorem getProject_updateStatus (id : Nat) (st : String) (db : DB) (p : Project)
    (h : getProject id db = some p) :
    getProject id (updateProjectStatus id st db) = some { p with status := st } := by
  have hpp : p.id = id := by simpa using (head?_filter_spec h).2
  unfold getProject updateProjectStatus
  rw [head?_filter_map]
  · unfold getProject at h
    rw [h]
    simp [hpp]
  · intro x
    by_cases hx : (x.id == id) = true <;> simp [hx]

/-- getUser reads only the users table. -/
theorem getUser_congr (id : Nat) (db db2 : DB) (h : db.users = db2.users) :
    getUser id db = getUser id db2 := by
  unfold getUser
  rw [h]

/-- getProject reads only the projects table. -/
theorem getProject_congr (id : Nat) (db db2 : DB) (h : db.projects = db2.projects) :
    getProject id db = getProject id db2 := by
  unfold getProject
  rw [h]

/-- C4: an allowed creation by a free-tier user with a positive balance c
writes exactly one new Project row and leaves that user with c - 1
credits (so one credit becomes zero); an allowed creation by a pro user
writes one row and leaves the users table — in particular the credits
field — entirely untouched, whatever its prior value. -/
theorem c4_creation_deduction (uid : String) (body : ProjectBody) (db : DB) (u : User)
    (hu : getUserByFirebaseUid uid db = some u)
    (hid : getUser u.id db = some u) :
    (∀ c : Int, u.accountTier = "free" → u.credits = some c → 0 < c →
      ∃ p db2, createProjectRoute (some uid) body db = (CreateProjectResp.ok p, db2) ∧
        db2.projects = db.projects ++ [p] ∧
        getUser u.id db2 = some { u with credits := some (c - 1) }) ∧
    (u.accountTier = "pro" →
      ∃ p db2, createProjectRoute (some uid) body db = (CreateProjectResp.ok p, db2) ∧
        db2.projects = db.projects ++ [p] ∧
        db2.users = db.users) := by
  constructor
  · intro c htier hcred hpos
    have hcan : canUserCreateProject u.id db = true := by
      simp [canUserCreateProject, hid, htier, hcred]
      omega
    have hded : u.accountTier = "free" ∧ u.credits ≠ none := by
      refine ⟨htier, ?_⟩
      rw [hcred]
      simp
    have hroute : createProjectRoute (some uid) body db =
        (CreateProjectResp.ok (createProject u.id body db).1,
          createLog (some (createProject u.id body db).1.id) "INFO"
            ("Project \"" ++ (createProject u.id body db).1.name ++ "\" created")
            (updateUserCredits u.id (u.credits.getD 0 - 1) (createProject u.id body db).2)) := by
      simp [createProjectRoute, hu, hcan, hded]
    refine ⟨(createProject u.id body db).1, _, hroute, ?_, ?_⟩
    · simp [createLog, updateUserCredits, createProject]
    · have h1 : getUser u.id (createProject u.id body db).2 = some u := by
        rw [← getUser_congr u.id db _ (by simp [createProject])]
        exact hid
      have h2 := getUser_updateUserCredits u.id (u.credits.getD 0 - 1) _ u h1
      have h3 : getUser u.id
          (createLog (some (createProject u.id body db).1.id) "INFO"
            ("Project \"" ++ (createProject u.id body db).1.name ++ "\" created")
            (updateUserCredits u.id (u.credits.getD 0 - 1) (createProject u.id body db).2)) =
          getUser u.id
            (updateUserCredits u.id (u.credits.getD 0 - 1) (createProject u.id body db).2) := by
        apply getUser_congr
        simp [createLog]
      rw [h3, h2, hcred]
      simp
  · intro htier
    have hcan : canUserCreateProject u.id db = true := by
      simp [canUserCreateProject, hid, htier]
    have hded : ¬ (u.accountTier = "free" ∧ u.credits ≠ none) := by
      rw [htier]
      simp
    have hroute : createProjectRoute (some uid) body db =
        (CreateProjectResp.ok (createProject u.id body db).1,
          createLog (some (createProject u.id body db).1.id) "INFO"
            ("Project \"" ++ (createProject u.id body db).1.name ++ "\" created")
            (createProject u.id body db).2) := by
      simp [createProjectRoute, hu, hcan, hded]
    refine ⟨(createProject u.id body db).1, _, hroute, ?_, ?_⟩
    · simp [createLog, createProject]
    · simp [createLog, createProject]

/-- C4 witness: the one-credit user creates a project and drops to zero
credits; the pro user creates one with the users table unchanged. -/
theorem c4_creation_deduction_witness :
    (∃ p db2, createProjectRoute (some "uid-a")
        { name := "P", description := none, status := none } dbC4free =
        (CreateProjectResp.ok p, db2) ∧
      db2.projects = dbC4free.projects ++ [p] ∧
      getUser uA.id db2 = some { uA with credits := some (1 - 1) }) ∧
    (∃ p db2, createProjectRoute (some "uid-a")
        { name := "P", description := none, status := none } dbC4pro =
        (CreateProjectResp.ok p, db2) ∧
      db2.projects = dbC4pro.projects ++ [p] ∧
      db2.users = dbC4pro.users) :=
  ⟨(c4_creation_deduction "uid-a" { name := "P", description := none, status := none }
      dbC4free uA rfl rfl).1 1 rfl rfl (by decide),
   (c4_creation_deduction "uid-a" { name := "P", description := none, status := none }
      dbC4pro uPro rfl rfl).2 rfl⟩

/-- The per-file persistence loop saves one row and one INFO log per
file and touches no other table. -/
theorem saveFilesLoop_spec (pid : Nat) (files : List FileInput) (db : DB) :
    (saveFilesLoop pid files db).1.length = files.length ∧
    (saveFilesLoop pid files db).2.projects = db.projects ∧
    (saveFilesLoop pid files db).2.users = db.users ∧
    ∃ logsNew, (saveFilesLoop pid files db).2.logs = db.logs ++ logsNew ∧
      logsNew.length = files.length ∧ ∀ l ∈ logsNew, l.level = "INFO" := by
  induction files generalizing db with
  | nil => simp [saveFilesLoop]
  | cons f rest ih =>
    obtain ⟨hlen, hproj, husers, logsNew, hlogs, hlogsLen, hinfo⟩ :=
      ih (createLog (some pid) "INFO" ("File \"" ++ f.filename ++ "\" uploaded")
        (createProjectFile pid f db).2)
    refine ⟨?_, ?_, ?_, ?_⟩
    · simpa [saveFilesLoop, createProjectFile, createLog] using hlen
    · simpa [saveFilesLoop, createProjectFile, createLog] using hproj
    · simpa [saveFilesLoop, createProjectFile, createLog] using husers
    · refine ⟨{ projectId := some pid, level := "INFO", message := "File \"" ++ f.filename ++ "\" uploaded" } :: logsNew, ?_, ?_, ?_⟩
      · simpa [saveFilesLoop, createProjectFile, createLog] using hlogs
      · simpa using hlogsLen
      · intro l hl
        rcases List.mem_cons.mp hl with h | h
        · rw [h]
        · exact hinfo l h

/-- The configuration error message contains the marker the upload route
greps for. -/
theorem includes_key_marker :
    jsIncludes openAiKeyMsg "OpenAI API key not configured" = true := rfl

/-- C5: uploading files to an owned project with the AI delegate
unconfigured still answers HTTP success with the persisted file records,
stamps the project completed, and appends one INFO log per file followed
by exactly one WARNING log whose message references the missing
configuration. -/
theorem c5_upload_unconfigured (env : AIEnv) (uid : String) (pid : Nat)
    (files : List FileInput) (db : DB) (p : Project) (u : User)
    (hconf : env.configured = false)
    (hp : getProject pid db = some p)
    (hu : getUserByFirebaseUid uid db = some u)
    (hown : p.userId = u.id) :
    ∃ saved db2 infoLogs,
      uploadFilesRoute env (some uid) pid files db = (UploadResp.ok saved, db2) ∧
      saved.length = files.length ∧
      (getProject pid db2).map Project.status = some "completed" ∧
      db2.logs = db.logs ++ infoLogs ++
        [{ projectId := some pid, level := "WARNING", message := "Files uploaded successfully, AI analysis skipped (OpenAI API key not configured)" }] ∧
      infoLogs.length = files.length ∧ (∀ l ∈ infoLogs, l.level = "INFO") ∧
      jsIncludes
        "Files uploaded successfully, AI analysis skipped (OpenAI API key not configured)"
        "OpenAI API key not configured" = true := by
  have hroute : uploadFilesRoute env (some uid) pid files db =
      (UploadResp.ok (saveFilesLoop pid files (updateProjectStatus pid "processing" db)).1,
        createLog (some pid) "WARNING"
          "Files uploaded successfully, AI analysis skipped (OpenAI API key not configured)"
          (updateProjectStatus pid "completed"
            (saveFilesLoop pid files (updateProjectStatus pid "processing" db)).2)) := by
    simp [uploadFilesRoute, hp, hu, hown, analyzeProject, hconf, includes_key_marker]
  obtain ⟨hlen, hproj, husers, infoLogs, hlogs, hlogsLen, hinfo⟩ :=
    saveFilesLoop_spec pid files (updateProjectStatus pid "processing" db)
  refine ⟨_, _, infoLogs, hroute, hlen, ?_, ?_, hlogsLen, hinfo, rfl⟩
  · have hp1 : getProject pid (updateProjectStatus pid "processing" db) =
        some { p with status := "processing" } := getProject_updateStatus pid "processing" db p hp
    have hp2 : getProject pid
        (saveFilesLoop pid files (updateProjectStatus pid "processing" db)).2 =
        some { p with status := "processing" } :=
      (getProject_congr pid _ _ hproj).trans hp1
    have hp3 := getProject_updateStatus pid "completed" _ _ hp2
    have hp4 : getProject pid
        (createLog (some pid) "WARNING"
          "Files uploaded successfully, AI analysis skipped (OpenAI API key not configured)"
          (updateProjectStatus pid "completed"
            (saveFilesLoop pid files (updateProjectStatus pid "processing" db)).2)) =
        some { { p with status := "processing" } with status := "completed" } :=
      (getProject_congr pid _ _ (by simp [createLog])).trans hp3
    rw [hp4]
    rfl
  · have hlogs2 : (saveFilesLoop pid files (updateProjectStatus pid "processing" db)).2.logs =
        db.logs ++ infoLogs := hlogs
    show (saveFilesLoop pid files (updateProjectStatus pid "processing" db)).2.logs ++
        [{ projectId := some pid, level := "WARNING", message := "Files uploaded successfully, AI analysis skipped (OpenAI API key not configured)" }] = _
    rw [hlogs2]

/-- C5 witness: one file uploaded to the owned pending project with the
delegate off. -/
theorem c5_upload_unconfigured_witness :
    ∃ saved db2 infoLogs,
      uploadFilesRoute envOff (some "uid-a") 3 [exFile] dbC5 = (UploadResp.ok saved, db2) ∧
      saved.length = [exFile].length ∧
      (getProject 3 db2).map Project.status = some "completed" ∧
      db2.logs = dbC5.logs ++ infoLogs ++
        [{ projectId := some 3, level := "WARNING", message := "Files uploaded successfully, AI analysis skipped (OpenAI API key not configured)" }] ∧
      infoLogs.length = [exFile].length ∧ (∀ l ∈ infoLogs, l.level = "INFO") ∧
      jsIncludes
        "Files uploaded successfully, AI analysis skipped (OpenAI API key not configured)"
        "OpenAI API key not configured" = true :=
  c5_upload_unconfigured envOff "uid-a" 3 [exFile] dbC5 projA uA rfl rfl rfl rfl

/-- With a configured delegate, analyzeProject always succeeds — the
per-file try/catch swallows every individual model failure — and an
AnalysisResult row for the project exists afterwards, with the projects,
logs and users tables untouched. -/
theorem analyzeProject_ok (env : AIEnv) (pid : Nat) (db : DB)
    (hconf : env.configured = true) :
    ∃ db2, analyzeProject env pid db = Except.ok db2 ∧ db2.projects = db.projects ∧
      db2.logs = db.logs ∧ db2.users = db.users ∧ ∃ r ∈ db2.results, r.projectId = pid := by
  cases hres : getAnalysisResult pid db with
  | some r0 =>
    have hroute : analyzeProject env pid db = Except.ok (updateAnalysisResult pid
        ((getProjectFiles pid db).foldl (analyzeFileStep env)
          { astData := [], hooks := [], imports := [] }) db) := by
      simp [analyzeProject, hconf, hres]
    have hmem : r0 ∈ db.results := (head?_filter_spec hres).1
    have hpid : r0.projectId = pid := by simpa using (head?_filter_spec hres).2
    refine ⟨_, hroute, ?_, ?_, ?_, ?_⟩
    · simp [updateAnalysisResult]
    · simp [updateAnalysisResult]
    · simp [updateAnalysisResult]
    · refine ⟨_, List.mem_map_of_mem _ hmem, ?_⟩
      simp [hpid]
  | none =>
    have hroute : analyzeProject env pid db = Except.ok (createAnalysisResult pid
        ((getProjectFiles pid db).foldl (analyzeFileStep env)
          { astData := [], hooks := [], imports := [] }) db).2 := by
      simp [analyzeProject, hconf, hres]
    refine ⟨_, hroute, ?_, ?_, ?_, ?_⟩
    · simp [createAnalysisResult]
    · simp [createAnalysisResult]
    · simp [createAnalysisResult]
    · refine ⟨(createAnalysisResult pid
        ((getProjectFiles pid db).foldl (analyzeFileStep env)
          { astData := [], hooks := [], imports := [] }) db).1, ?_, rfl⟩
      simp [createAnalysisResult]

/-- C10: with a configured credential, project analysis always creates or
updates an AnalysisResult row — per-file model failures are caught inside
the loop and never propagate — so an owned upload cannot reach the
error-status outcome through an individual model-call failure: it always
completes with success and a completed project status. -/
theorem c10_analysis_always_persists (env : AIEnv) (hconf : env.configured = true) :
    (∀ pid db, ∃ db2, analyzeProject env pid db = Except.ok db2 ∧
      ∃ r ∈ db2.results, r.projectId = pid) ∧
    (∀ uid pid files db p u, getProject pid db = some p →
      getUserByFirebaseUid uid db = some u → p.userId = u.id →
      ∃ saved db2, uploadFilesRoute env (some uid) pid files db = (UploadResp.ok saved, db2) ∧
        (getProject pid db2).map Project.status = some "completed") := by
  constructor
  · intro pid db
    obtain ⟨db2, h1, _, _, _, hr⟩ := analyzeProject_ok env pid db hconf
    exact ⟨db2, h1, hr⟩
  · intro uid pid files db p u hp hu hown
    obtain ⟨hlen, hproj, husers, logsNew, hlogs, _, _⟩ :=
      saveFilesLoop_spec pid files (updateProjectStatus pid "processing" db)
    obtain ⟨db3, hana, hproj3, hlogs3, husers3, hr⟩ :=
      analyzeProject_ok env pid
        (saveFilesLoop pid files (updateProjectStatus pid "processing" db)).2 hconf
    have hroute : uploadFilesRoute env (some uid) pid files db =
        (UploadResp.ok (saveFilesLoop pid files (updateProjectStatus pid "processing" db)).1,
          createLog (some pid) "SUCCESS" "Project analysis completed successfully"
            (updateProjectStatus pid "completed" db3)) := by
      simp [uploadFilesRoute, hp, hu, hown, hana]
    have hp1 : getProject pid (updateProjectStatus pid "processing" db) =
        some { p with status := "processing" } := getProject_updateStatus pid "processing" db p hp
    have hp2 : getProject pid db3 = some { p with status := "processing" } :=
      ((getProject_congr pid db3 _ hproj3).trans ((getProject_congr pid _ _ hproj).trans hp1))
    have hp3 := getProject_updateStatus pid "completed" _ _ hp2
    have hp4 : getProject pid
        (createLog (some pid) "SUCCESS" "Project analysis completed successfully"
          (updateProjectStatus pid "completed" db3)) =
        some { { p with status := "processing" } with status := "completed" } :=
      (getProject_congr pid _ _ (by simp [createLog])).trans hp3
    refine ⟨_, _, hroute, ?_⟩
    rw [hp4]
    rfl

/-- C10 witness: on a configured delegate whose model returns empty
content (so the parsed shape spreads fail and every per-file analysis is
swallowed), the analysis persists a result row and an owned upload
completes. -/
theorem c10_analysis_always_persists_witness :
    (∃ db2, analyzeProject envOn 3 dbC5 = Except.ok db2 ∧
      ∃ r ∈ db2.results, r.projectId = 3) ∧
    (∃ saved db2, uploadFilesRoute envOn (some "uid-a") 3 [exFile] dbC5 =
        (UploadResp.ok saved, db2) ∧
      (getProject 3 db2).map Project.status = some "completed") :=
  ⟨(c10_analysis_always_persists envOn rfl).1 3 dbC5,
   (c10_analysis_always_persists envOn rfl).2 "uid-a" 3 [exFile] dbC5 projA uA rfl rfl rfl⟩

/-- An empty pick means an empty candidate list. -/
theorem pickLatest_none {l : List AiChat} (h : pickLatest l = none) : l = [] := by
  cases l with
  | nil => rfl
  | cons a as =>
    simp only [pickLatest] at h
    cases hp : pickLatest as with
    | none => rw [hp] at h; simp at h
    | some d =>
      rw [hp] at h
      by_cases hgt : d.updatedAt > a.updatedAt <;> simp [hgt] at h

/-- The picked chat is one of the candidates. -/
theorem pickLatest_mem {l : List AiChat} {c : AiChat} (h : pickLatest l = some c) : c ∈ l := by
  induction l with
  | nil => simp [pickLatest] at h
  | cons a as ih =>
    simp only [pickLatest] at h
    cases hp : pickLatest as with
    | none =>
      rw [hp] at h
      simp at h
      simp [h]
    | some d =>
      rw [hp] at h
      by_cases hgt : d.updatedAt > a.updatedAt
      · simp [hgt] at h
        subst h
        exact List.mem_cons_of_mem _ (ih hp)
      · simp [hgt] at h
        simp [h]

/-- The picked chat has the greatest updatedAt among the candidates. -/
theorem pickLatest_max {l : List AiChat} {c : AiChat} (h : pickLatest l = some c) :
    ∀ d ∈ l, d.updatedAt ≤ c.updatedAt := by
  induction l generalizing c with
  | nil => simp [pickLatest] at h
  | cons a as ih =>
    simp only [pickLatest] at h
    cases hp : pickLatest as with
    | none =>
      rw [hp] at h
      simp at h
      subst h
      have hase : as = [] := pickLatest_none hp
      subst hase
      intro d hd
      simp at hd
      simp [hd]
    | some e =>
      rw [hp] at h
      intro d hd
      by_cases hgt : e.updatedAt > a.updatedAt
      · simp [hgt] at h
        subst h
        rcases List.mem_cons.mp hd with rfl | hd2
        · exact le_of_lt hgt
        · exact ih hp d hd2
      · simp [hgt] at h
        subst h
        rcases List.mem_cons.mp hd with rfl | hd2
        · exact le_refl _
        · exact le_trans (ih hp d hd2) (le_of_not_lt hgt)

/-- A nonempty candidate list yields a pick. -/
theorem pickLatest_isSome {l : List AiChat} (h : l ≠ []) : ∃ c, pickLatest l = some c := by
  cases hp : pickLatest l with
  | none => exact absurd (pickLatest_none hp) h
  | some c => exact ⟨c, rfl⟩

/-- A truthy projectId filter comes from that same projectId argument. -/
theorem pidTruthy_some {o : Option Nat} {p : Nat} (h : pidTruthy o = some p) : o = some p := by
  cases o with
  | none => simp [pidTruthy] at h
  | some q =>
    simp only [pidTruthy] at h
    by_cases hq : q = 0
    · rw [if_pos hq] at h; cases h
    · rw [if_neg hq] at h
      simpa using h

/-- Rewriting a chat's messages and updatedAt does not change whether it
matches a (userId, projectId) condition. -/
theorem chatMatches_update (u : Nat) (pf : Option Nat) (cid : Nat) (M : List ChatMsg) (T : Nat)
    (x : AiChat) :
    chatMatches u pf (if x.id = cid then { x with messages := M, updatedAt := T } else x) =
      chatMatches u pf x := by
  by_cases hx : x.id = cid <;> simp [hx, chatMatches]

/-- A chat whose columns equal the query parameters matches the
condition getAiChat builds from them. -/
theorem chatMatches_self (uId : Nat) (pid : Option Nat) (c : AiChat)
    (hu : c.userId = uId) (hp : c.projectId = pid) :
    chatMatches uId (pidTruthy pid) c = true := by
  unfold chatMatches
  cases hpt : pidTruthy pid with
  | none => simp [hu]
  | some q =>
    have hq := pidTruthy_some hpt
    simp [hu, hp, hq]

/-- The last element of a list is a member. -/
theorem mem_of_getLast? {α : Type} {l : List α} {x : α} (h : l.getLast? = some x) : x ∈ l := by
  induction l with
  | nil => simp at h
  | cons a as ih =>
    cases as with
    | nil =>
      simp [List.getLast?] at h
      simp [h]
    | cons b bs =>
      rw [List.getLast?_cons_cons] at h
      exact List.mem_cons_of_mem _ (ih h)

/-- The ai_chat socket handler when no chat row exists yet: it creates
the row, appends the user and assistant entries with successive clock
stamps, persists, and answers an ai_response frame. -/
theorem wsAiChat_create (env : AIEnv) (m : ChatIncoming) (db : DB)
    (hconf : env.configured = true)
    (hfetch : getAiChat m.userId m.projectId db = none) :
    wsAiChat env m db = Except.ok
      ({ content := (env.chatContent m.content).getD apologyMsg, timestamp := db.clock + 1 + 1 + 1 + 1 },
       { users := db.users, projects := db.projects, files := db.files, results := db.results,
         chats := List.map (fun c : AiChat => if c.id = db.nextId then { c with messages := [{ role := "user", content := m.content, timestamp := db.clock + 1 }, { role := "assistant", content := (env.chatContent m.content).getD apologyMsg, timestamp := db.clock + 1 + 1 }], updatedAt := db.clock + 1 + 1 + 1 } else c) db.chats ++ [{ id := db.nextId, userId := m.userId, projectId := m.projectId, messages := [{ role := "user", content := m.content, timestamp := db.clock + 1 }, { role := "assistant", content := (env.chatContent m.content).getD apologyMsg, timestamp := db.clock + 1 + 1 }], updatedAt := db.clock + 1 + 1 + 1 }],
         logs := db.logs, nextId := db.nextId + 1, clock := db.clock + 1 + 1 + 1 + 1 + 1 }) := by
  simp [wsAiChat, hfetch, hconf, generateChatResponse, createAiChat, updateAiChat, tick]

/-- The ai_chat socket handler on an existing chat row: it appends the
user and assistant entries to the fetched messages with successive clock
stamps, persists them under the fetched chat id, and answers an
ai_response frame. -/
theorem wsAiChat_fetch (env : AIEnv) (m : ChatIncoming) (db : DB) (c0 : AiChat)
    (hconf : env.configured = true)
    (hfetch : getAiChat m.userId m.projectId db = some c0) :
    wsAiChat env m db = Except.ok
      ({ content := (env.chatContent m.content).getD apologyMsg, timestamp := db.clock + 1 + 1 + 1 },
       { users := db.users, projects := db.projects, files := db.files, results := db.results,
         chats := List.map (fun c : AiChat => if c.id = c0.id then { c with messages := c0.messages ++ [{ role := "user", content := m.content, timestamp := db.clock }, { role := "assistant", content := (env.chatContent m.content).getD apologyMsg, timestamp := db.clock + 1 }], updatedAt := db.clock + 1 + 1 } else c) db.chats,
         logs := db.logs, nextId := db.nextId, clock := db.clock + 1 + 1 + 1 + 1 }) := by
  simp [wsAiChat, hfetch, hconf, generateChatResponse, createAiChat, updateAiChat, tick]

/-- C8: an ai_chat socket message processed without exception (the
delegate is configured), read back through GET /api/ai/chat/:userId with
the same userId and projectId, yields a message list ending in a
user-role entry carrying the posted content followed by an
assistant-role entry carrying the reply, with non-decreasing timestamps
across the whole list. The hypotheses are invariants of reachable
stores: every chat's updatedAt and message timestamps lie below the
current clock and each stored message list is itself sorted. -/
theorem c8_chat_roundtrip (env : AIEnv) (m : ChatIncoming) (db : DB) (s : String)
    (hconf : env.configured = true)
    (hupd : ∀ c ∈ db.chats, c.updatedAt < db.clock)
    (hts : ∀ c ∈ db.chats, ∀ x ∈ c.messages, x.timestamp ≤ db.clock)
    (hchain : ∀ c ∈ db.chats, List.Chain' (fun a b => a.timestamp ≤ b.timestamp) c.messages) :
    ∃ frame db2 rest userE asstE,
      wsAiChat env m db = Except.ok (frame, db2) ∧
      getChatRoute (some s) m.userId m.projectId db2 = ApiResp.ok (rest ++ [userE, asstE]) ∧
      userE.role = "user" ∧ userE.content = m.content ∧
      asstE.role = "assistant" ∧ asstE.content = frame.content ∧
      List.Chain' (fun a b => a.timestamp ≤ b.timestamp) (rest ++ [userE, asstE]) := by
  cases hfetch : getAiChat m.userId m.projectId db with
  | none =>
    refine ⟨_, _, [], { role := "user", content := m.content, timestamp := db.clock + 1 }, { role := "assistant", content := (env.chatContent m.content).getD apologyMsg, timestamp := db.clock + 1 + 1 }, wsAiChat_create env m db hconf hfetch, ?_, rfl, rfl, rfl, rfl, ?_⟩
    · have hempty : db.chats.filter (chatMatches m.userId (pidTruthy m.projectId)) = [] :=
        pickLatest_none hfetch
      simp only [getChatRoute, getAiChat]
      rw [List.filter_append]
      rw [filter_map_comm _ _ _
        (chatMatches_update m.userId (pidTruthy m.projectId) db.nextId _ _)]
      rw [hempty]
      rw [List.filter_cons]
      rw [if_pos (by exact chatMatches_self m.userId m.projectId _ rfl rfl)]
      simp [pickLatest]
    · simp only [List.nil_append]
      exact List.chain'_pair.mpr (show db.clock + 1 ≤ db.clock + 1 + 1 by omega)
  | some c0 =>
    have hc0l : c0 ∈ db.chats.filter (chatMatches m.userId (pidTruthy m.projectId)) :=
      pickLatest_mem hfetch
    have hc0mem : c0 ∈ db.chats := (List.mem_filter.mp hc0l).1
    refine ⟨_, _, c0.messages, { role := "user", content := m.content, timestamp := db.clock }, { role := "assistant", content := (env.chatContent m.content).getD apologyMsg, timestamp := db.clock + 1 }, wsAiChat_fetch env m db c0 hconf hfetch, ?_, rfl, rfl, rfl, rfl, ?_⟩
    · simp only [getChatRoute, getAiChat]
      rw [filter_map_comm _ _ _
        (chatMatches_update m.userId (pidTruthy m.projectId) c0.id _ _)]
      have hfc0mem : (if c0.id = c0.id then { c0 with messages := c0.messages ++ [{ role := "user", content := m.content, timestamp := db.clock }, { role := "assistant", content := (env.chatContent m.content).getD apologyMsg, timestamp := db.clock + 1 }], updatedAt := db.clock + 1 + 1 } else c0) ∈
          (db.chats.filter (chatMatches m.userId (pidTruthy m.projectId))).map
            (fun c : AiChat => if c.id = c0.id then { c with messages := c0.messages ++ [{ role := "user", content := m.content, timestamp := db.clock }, { role := "assistant", content := (env.chatContent m.content).getD apologyMsg, timestamp := db.clock + 1 }], updatedAt := db.clock + 1 + 1 } else c) :=
        List.mem_map_of_mem _ hc0l
      have hne : (db.chats.filter (chatMatches m.userId (pidTruthy m.projectId))).map
          (fun c : AiChat => if c.id = c0.id then { c with messages := c0.messages ++ [{ role := "user", content := m.content, timestamp := db.clock }, { role := "assistant", content := (env.chatContent m.content).getD apologyMsg, timestamp := db.clock + 1 }], updatedAt := db.clock + 1 + 1 } else c) ≠ [] :=
        List.ne_nil_of_mem hfc0mem
      obtain ⟨cmax, hcm⟩ := pickLatest_isSome hne
      rw [hcm]
      have hmaxc0 := pickLatest_max hcm _ hfc0mem
      rw [if_pos rfl] at hmaxc0
      obtain ⟨d, hd, hdeq⟩ := List.mem_map.mp (pickLatest_mem hcm)
      by_cases hdid : d.id = c0.id
      · rw [if_pos hdid] at hdeq
        have hmsgs : cmax.messages = c0.messages ++ [{ role := "user", content := m.content, timestamp := db.clock }, { role := "assistant", content := (env.chatContent m.content).getD apologyMsg, timestamp := db.clock + 1 }] := by
          rw [← hdeq]
        exact congrArg ApiResp.ok hmsgs
      · rw [if_neg hdid] at hdeq
        have hlt : d.updatedAt < db.clock := hupd d (List.mem_filter.mp hd).1
        rw [← hdeq] at hmaxc0
        simp at hmaxc0
        omega
    · refine List.chain'_append.mpr ⟨hchain c0 hc0mem, ?_, ?_⟩
      · exact List.chain'_pair.mpr (show db.clock ≤ db.clock + 1 by omega)
      · intro x hx y hy
        simp only [List.head?_cons, Option.mem_def, Option.some.injEq] at hy
        have hxm : x ∈ c0.messages := mem_of_getLast? (Option.mem_def.mp hx)
        have hle := hts c0 hc0mem x hxm
        rw [← hy]
        exact hle

/-- C8 witness: user 2 posts over the socket into the store where their
chat already exists; the history read afterwards ends with the user and
assistant entries in order. -/
theorem c8_chat_roundtrip_witness :
    ∃ frame db2 rest userE asstE,
      wsAiChat envOn { userId := 2, projectId := none, content := "hello" } dbC1 =
        Except.ok (frame, db2) ∧
      getChatRoute (some "uid-b") 2 none db2 = ApiResp.ok (rest ++ [userE, asstE]) ∧
      userE.role = "user" ∧ userE.content = "hello" ∧
      asstE.role = "assistant" ∧ asstE.content = frame.content ∧
      List.Chain' (fun a b => a.timestamp ≤ b.timestamp) (rest ++ [userE, asstE]) :=
  c8_chat_roundtrip envOn { userId := 2, projectId := none, content := "hello" } dbC1 "uid-b"
    rfl (by decide) (by decide)
    (by intro c hc; simp [dbC1] at hc; simp [hc, chatB])
